import Mathlib

/-!
Verification of the RAFT repository's consensus state machines.

This file shallowly embeds the two node state machines of the repository:
the RLog (Raft-style) node of `raft_node.py` and the BOrder (pBFT-style)
node of `pBFT/pbft_node.py`.  Python integers are modelled as `Nat`/`Int`
(the log indices `commit_index`, `last_applied`, `prev_log_index` use `Int`
because the code uses `-1` as a sentinel), Python dicts as association
lists, and the SHA-256 hashing done through `hashlib` is implemented in
full so that concrete hash values can be computed inside Lean.
-/

/-! ## SHA-256 (model of `hashlib.sha256(...).hexdigest()`) -/

/-- Truncate to a 32-bit word. -/
def w32 (n : Nat) : Nat := n % 4294967296

/-- Right rotation of a 32-bit word. -/
def rotr32 (n x : Nat) : Nat := w32 ((x >>> n) ||| (x <<< (32 - n)))

def bigSig0 (x : Nat) : Nat := rotr32 2 x ^^^ rotr32 13 x ^^^ rotr32 22 x

def bigSig1 (x : Nat) : Nat := rotr32 6 x ^^^ rotr32 11 x ^^^ rotr32 25 x

def smallSig0 (x : Nat) : Nat := rotr32 7 x ^^^ rotr32 18 x ^^^ (x >>> 3)

def smallSig1 (x : Nat) : Nat := rotr32 17 x ^^^ rotr32 19 x ^^^ (x >>> 10)

def chFun (x y z : Nat) : Nat := (x &&& y) ^^^ ((x ^^^ 4294967295) &&& z)

def majFun (x y z : Nat) : Nat := (x &&& y) ^^^ (x &&& z) ^^^ (y &&& z)

/-- The 64 SHA-256 round constants (FIPS 180-4), written in decimal. -/
def shaK : List Nat :=
  [1116352408, 1899447441, 3049323471, 3921009573,
   961987163, 1508970993, 2453635748, 2870763221,
   3624381080, 310598401, 607225278, 1426881987,
   1925078388, 2162078206, 2614888103, 3248222580,
   3835390401, 4022224774, 264347078, 604807628,
   770255983, 1249150122, 1555081692, 1996064986,
   2554220882, 2821834349, 2952996808, 3210313671,
   3336571891, 3584528711, 113926993, 338241895,
   666307205, 773529912, 1294757372, 1396182291,
   1695183700, 1986661051, 2177026350, 2456956037,
   2730485921, 2820302411, 3259730800, 3345764771,
   3516065817, 3600352804, 4094571909, 275423344,
   430227734, 506948616, 659060556, 883997877,
   958139571, 1322822218, 1537002063, 1747873779,
   1955562222, 2024104815, 2227730452, 2361852424,
   2428436474, 2756734187, 3204031479, 3329325298]

/-- The SHA-256 initial hash value (FIPS 180-4), written in decimal. -/
def shaH0 : List Nat :=
  [1779033703, 3144134277, 1013904242, 2773480762,
   1359893119, 2600822924, 528734635, 1541459225]

/-- SHA-256 padding: append `0x80`, zero bytes to 56 mod 64, then the
bit length as 8 big-endian bytes. -/
def shaPad (msg : List Nat) : List Nat :=
  let L := msg.length
  let zeros := (64 + 55 - (L % 64)) % 64
  msg ++ 0x80 :: List.replicate zeros 0 ++
    (List.range 8).map (fun i => (8 * L) >>> (8 * (7 - i)) &&& 255)

/-- Split into 64-byte chunks (fuel-based to keep the recursion structural). -/
def chunksAux : Nat → List Nat → List (List Nat)
  | 0, _ => []
  | _ + 1, [] => []
  | n + 1, bs => bs.take 64 :: chunksAux n (bs.drop 64)

def chunks64 (bs : List Nat) : List (List Nat) := chunksAux bs.length bs

/-- First 16 message-schedule words: big-endian 32-bit words of the chunk. -/
def beWords (chunk : List Nat) : List Nat :=
  (List.range 16).map (fun i =>
    chunk.getD (4 * i) 0 <<< 24 ||| chunk.getD (4 * i + 1) 0 <<< 16 |||
    chunk.getD (4 * i + 2) 0 <<< 8 ||| chunk.getD (4 * i + 3) 0)

/-- Extend the schedule to 64 words. -/
def extendW (w : List Nat) : List Nat :=
  (List.range 48).foldl
    (fun w _ =>
      w ++ [w32 (smallSig1 (w.getD (w.length - 2) 0) + w.getD (w.length - 7) 0 +
               smallSig0 (w.getD (w.length - 15) 0) + w.getD (w.length - 16) 0)])
    w

/-- One SHA-256 compression step over a 64-byte chunk. -/
def compressChunk (h : List Nat) (chunk : List Nat) : List Nat :=
  let w := extendW (beWords chunk)
  let final := (List.range 64).foldl
    (fun st t =>
      match st with
      | [a, b, c, d, e, f, g, hh] =>
        let t1 := w32 (hh + bigSig1 e + chFun e f g + shaK.getD t 0 + w.getD t 0)
        let t2 := w32 (bigSig0 a + majFun a b c)
        [w32 (t1 + t2), a, b, c, w32 (d + t1), e, f, g]
      | other => other)
    h
  (h.zip final).map (fun p => w32 (p.1 + p.2))

/-- SHA-256 digest (32 bytes) of a byte list. -/
def sha256 (msg : List Nat) : List Nat :=
  let hs := (chunks64 (shaPad msg)).foldl compressChunk shaH0
  hs.foldr (fun wv acc =>
    (wv >>> 24 &&& 255) :: (wv >>> 16 &&& 255) :: (wv >>> 8 &&& 255) :: (wv &&& 255) :: acc) []

/-- Lowercase hexadecimal digit. -/
def hexChar (n : Nat) : Char := if n < 10 then Char.ofNat (48 + n) else Char.ofNat (87 + n)

/-- Lowercase hex rendering of the SHA-256 digest, as `hexdigest()` returns. -/
def sha256hex (msg : List Nat) : String :=
  String.mk ((sha256 msg).foldr (fun b acc => hexChar (b / 16) :: hexChar (b % 16) :: acc) [])

/-- UTF-8 encoding of one code point. -/
def utf8Char (c : Nat) : List Nat :=
  if c < 128 then [c]
  else if c < 2048 then [192 ||| c >>> 6, 128 ||| (c &&& 63)]
  else if c < 65536 then
    [224 ||| c >>> 12, 128 ||| (c >>> 6 &&& 63), 128 ||| (c &&& 63)]
  else
    [240 ||| c >>> 18, 128 ||| (c >>> 12 &&& 63), 128 ||| (c >>> 6 &&& 63), 128 ||| (c &&& 63)]

/-- UTF-8 bytes of a string (model of Python `str.encode()`). -/
def strBytes (s : String) : List Nat :=
  s.data.foldr (fun ch acc => utf8Char ch.toNat ++ acc) []

set_option maxRecDepth 100000

/-- Sanity check of the SHA-256 model against the standard test vector. -/
theorem sha256_abc_vector :
    sha256hex (strBytes "abc") =
      "ba7816bf8f01cfea414140de5dae2223b00361a396177a9cb410ff61f20015ad" := by
  decide

/-! ## BOrder (pBFT) node embedding, from `pBFT/pbft_node.py` -/

/-- A block, as in `pbft.proto` / `pbft_pb2.Block`. -/
structure Block where
  block_height : Nat
  previous_hash : String
  block_hash : String
  timestamp : Nat
  data : String
  view_number : Nat
  sequence_number : Nat
deriving DecidableEq, Repr

/-- The consensus-relevant mutable state of `PBFTNode`. -/
structure PBFTState where
  node_id : String
  total_nodes : Nat
  view_number : Nat
  sequence_number : Nat
  is_primary : Bool
  primary_id : Option String
  blockchain : List Block
  pending_block : Option Block
  pre_prepare_log : List (Nat × Block)
  prepare_log : List ((Nat × String) × List String)
  commit_log : List ((Nat × String) × List String)
  is_malicious : Bool
  malicious_type : Option String
deriving DecidableEq, Repr

/-- Model of `self.f = (total_nodes - 1) // 3`. -/
def fOf (s : PBFTState) : Nat := (s.total_nodes - 1) / 3

/-- Model of `PBFTNode._compute_hash`: SHA-256 hexdigest of `f"{data}{prev_hash}{height}"`. -/
def compute_hash (data prev_hash : String) (height : Nat) : String :=
  sha256hex (strBytes (data ++ prev_hash ++ toString height))

/-- The 64-character zero string `"0" * 64`. -/
def zeros64 : String :=
  "0000000000000000000000000000000000000000000000000000000000000000"

/-- Model of `PBFTNode._create_genesis_block`. -/
def create_genesis_block (now : Nat) : Block :=
  { block_height := 0
    previous_hash := zeros64
    block_hash := compute_hash "genesis" zeros64 0
    timestamp := now
    data := "Genesis Block"
    view_number := 0
    sequence_number := 0 }

/-- Model of `PBFTNode.__init__` (consensus-relevant fields); `numPeers = len(peers)`. -/
def initPBFT (node_id : String) (numPeers : Nat) (is_primary : Bool) (now : Nat) :
    PBFTState :=
  { node_id := node_id
    total_nodes := numPeers + 1
    view_number := 0
    sequence_number := 0
    is_primary := is_primary
    primary_id := if is_primary then some node_id else none
    blockchain := [create_genesis_block now]
    pending_block := none
    pre_prepare_log := []
    prepare_log := []
    commit_log := []
    is_malicious := false
    malicious_type := none }

/-- Model of `PBFTNode._verify_block`.  The Python code reads `blockchain[-1]`, which
always exists because every node is created holding the genesis block; on an
empty chain Python would raise, modelled by the unreachable `none` branch. -/
def verify_block (s : PBFTState) (b : Block) : Bool × String :=
  match s.blockchain.getLast? with
  | none => (false, "no last block")
  | some last =>
    if b.block_height ≠ last.block_height + 1 then
      (false, "Invalid height: expected " ++ toString (last.block_height + 1) ++
        ", got " ++ toString b.block_height)
    else if b.previous_hash ≠ last.block_hash then
      (false, "Invalid previous hash")
    else if b.block_hash ≠ compute_hash b.data b.previous_hash b.block_height then
      (false, "Invalid block hash")
    else (true, "Block valid")

/-- Whether the node is in silent malicious mode. -/
def isSilent (s : PBFTState) : Bool :=
  s.is_malicious && s.malicious_type == some "silent"

/-- Association-list update modelling Python dict assignment `d[k] = v`. -/
def setAssoc {α β : Type} [BEq α] (l : List (α × β)) (k : α) (v : β) :
    List (α × β) :=
  if l.any (fun p => p.1 == k) then l.map (fun p => if p.1 == k then (k, v) else p)
  else l ++ [(k, v)]

/-- The `PrePrepareRequest` message. -/
structure PrePrepareRequest where
  view_number : Nat
  sequence_number : Nat
  block : Block
  primary_id : String
  signature : String
deriving DecidableEq, Repr

/-- The `PrePrepareResponse` message. -/
structure PrePrepareResponse where
  accepted : Bool
  node_id : String
  reason : String
deriving DecidableEq, Repr

/-- Model of `PBFTNode.PrePrepare`.  The accepting branch also spawns the Prepare
broadcast worker, which performs no further local mutation of its own. -/
def PrePrepare (s : PBFTState) (req : PrePrepareRequest) :
    PBFTState × PrePrepareResponse :=
  if isSilent s then (s, ⟨false, s.node_id, "Silent node"⟩)
  else if req.view_number ≠ s.view_number then
    (s, ⟨false, s.node_id,
         "View mismatch: expected " ++ toString s.view_number ++
           ", got " ++ toString req.view_number⟩)
  else if req.sequence_number ≠ s.sequence_number + 1 then
    (s, ⟨false, s.node_id, "Sequence mismatch"⟩)
  else if (verify_block s req.block).1 then
    ({ s with
        pre_prepare_log := setAssoc s.pre_prepare_log req.sequence_number req.block
        pending_block := some req.block
        sequence_number := req.sequence_number },
     ⟨true, s.node_id, "Accepted"⟩)
  else (s, ⟨false, s.node_id, (verify_block s req.block).2⟩)

/-- The `PrepareRequest` / `CommitRequest` message (identical field layout). -/
structure PhaseRequest where
  view_number : Nat
  sequence_number : Nat
  block_hash : String
  node_id : String
  signature : String
deriving DecidableEq, Repr

/-- The `PrepareResponse` / `CommitResponse` message. -/
structure PhaseResponse where
  accepted : Bool
  node_id : String
deriving DecidableEq, Repr

/-- Lookup with `defaultdict(list)` semantics. -/
def getLog (l : List ((Nat × String) × List String)) (k : Nat × String) :
    List String :=
  match l.find? (fun p => p.1 == k) with
  | some p => p.2
  | none => []

/-- Model of `if request.node_id not in log[seq][hash]: log[seq][hash].append(...)`. -/
def addSender (l : List ((Nat × String) × List String)) (k : Nat × String)
    (sender : String) : List ((Nat × String) × List String) :=
  let cur := getLog l k
  if sender ∈ cur then l else setAssoc l k (cur ++ [sender])

/-- Model of `PBFTNode.Prepare`.  Reaching the 2f+1 threshold only spawns the commit
broadcast worker; the handler itself mutates only `prepare_log`. -/
def Prepare (s : PBFTState) (req : PhaseRequest) : PBFTState × PhaseResponse :=
  if req.view_number ≠ s.view_number then (s, ⟨false, s.node_id⟩)
  else if req.sequence_number ≠ s.sequence_number then (s, ⟨false, s.node_id⟩)
  else
    ({ s with
        prepare_log := addSender s.prepare_log (req.sequence_number, req.block_hash) req.node_id },
     ⟨true, s.node_id⟩)

/-- Model of `PBFTNode._execute_block`. -/
def execute_block (s : PBFTState) (b : Block) : PBFTState :=
  if s.blockchain.any (fun x => x.block_hash == b.block_hash) then s
  else { s with blockchain := s.blockchain ++ [b], pending_block := none }

/-- Model of `PBFTNode.Commit`. -/
def Commit (s : PBFTState) (req : PhaseRequest) : PBFTState × PhaseResponse :=
  if req.view_number ≠ s.view_number then (s, ⟨false, s.node_id⟩)
  else if req.sequence_number ≠ s.sequence_number then (s, ⟨false, s.node_id⟩)
  else
    let k := (req.sequence_number, req.block_hash)
    let s1 := { s with commit_log := addSender s.commit_log k req.node_id }
    if (getLog s1.commit_log k).length ≥ 2 * fOf s1 + 1 then
      match s1.pending_block with
      | some pb =>
        if pb.block_hash == req.block_hash then (execute_block s1 pb, ⟨true, s1.node_id⟩)
        else (s1, ⟨true, s1.node_id⟩)
      | none => (s1, ⟨true, s1.node_id⟩)
    else (s1, ⟨true, s1.node_id⟩)

/-- The `ClientBlockResponse` message (`block_height` uses `-1` on rejection). -/
structure ClientBlockResponse where
  success : Bool
  message : String
  block_height : Int
deriving DecidableEq, Repr

/-- Python rendering of `f"{x}"` for an optional id (`None` prints as `"None"`). -/
def optIdStr : Option String → String
  | none => "None"
  | some x => x

/-- Model of `PBFTNode.ClientSubmitBlock`.  The reply is produced from local state
only; the Pre-prepare broadcast happens on a separate thread after the
reply, so no replica has seen the block when `success=true` is returned.
On an empty blockchain Python would raise on `blockchain[-1]`; every real
node holds at least the genesis block, so that branch is unreachable. -/
def ClientSubmitBlock (s : PBFTState) (data : String) (now : Nat) :
    PBFTState × ClientBlockResponse :=
  if s.is_primary = false then
    (s, ⟨false, "Not primary. Primary is " ++ optIdStr s.primary_id, -1⟩)
  else
    match s.blockchain.getLast? with
    | none => (s, ⟨false, "unreachable: empty blockchain", -1⟩)
    | some last =>
      let h := compute_hash data last.block_hash (last.block_height + 1)
      let bh := if s.is_malicious && s.malicious_type == some "wrong_hash"
                then "malicious_hash_" ++ h.take 40 else h
      let b : Block :=
        { block_height := last.block_height + 1
          previous_hash := last.block_hash
          block_hash := bh
          timestamp := now
          data := data
          view_number := s.view_number
          sequence_number := s.sequence_number + 1 }
      ({ s with sequence_number := s.sequence_number + 1, pending_block := some b },
       ⟨true, "Consensus initiated", Int.ofNat (last.block_height + 1)⟩)

/-- The `MaliciousConfigRequest` message. -/
structure MaliciousConfigRequest where
  enable_malicious : Bool
  malicious_type : String
deriving DecidableEq, Repr

/-- Model of `PBFTNode.SetMaliciousBehavior`. -/
def SetMaliciousBehavior (s : PBFTState) (req : MaliciousConfigRequest) :
    PBFTState × Bool :=
  ({ s with
      is_malicious := req.enable_malicious
      malicious_type := if req.enable_malicious then some req.malicious_type else none },
   true)

/-- One proposal round between the Primary and one Replica: the client
submits `data` to the Primary, and the Pre-prepare message that the
Primary's broadcast worker then sends (view, block sequence number, block)
is delivered to the Replica. -/
def proposalRound (ps rs : PBFTState) (data : String) (now : Nat) :
    PBFTState × PBFTState × PrePrepareResponse :=
  let pr := ClientSubmitBlock ps data now
  match pr.1.pending_block with
  | some b =>
    let rr := PrePrepare rs ⟨pr.1.view_number, b.sequence_number, b, pr.1.node_id, pr.1.node_id⟩
    (pr.1, rr.1, rr.2)
  | none => (pr.1, rs, ⟨false, rs.node_id, ""⟩)

/-- Iterated proposal rounds, collecting the Replica's replies. -/
def roundsN : Nat → PBFTState → PBFTState → String → Nat →
    PBFTState × PBFTState × List PrePrepareResponse
  | 0, ps, rs, _, _ => (ps, rs, [])
  | n + 1, ps, rs, data, now =>
    let r := proposalRound ps rs data now
    let rest := roundsN n r.1 r.2.1 data now
    (rest.1, rest.2.1, r.2.2 :: rest.2.2)

/-! ## RLog (Raft) node embedding, from `raft_node.py` -/

/-- A log entry `(term, key, value)` as in `raft.proto` / `raft_pb2.LogEntry`. -/
structure LogEntry where
  term : Nat
  key : String
  value : String
deriving DecidableEq, Repr

/-- The node role constants `FOLLOWER`, `CANDIDATE`, `LEADER`. -/
inductive Role where
  | Follower
  | Candidate
  | Leader
deriving DecidableEq, Repr

/-- The mutable state of `RaftNode`.  `commit_index`, `last_applied` and the
per-peer indices use `Int` because the code uses `-1` as a sentinel. -/
structure RaftState where
  node_id : String
  peers : List (String × String)
  current_term : Nat
  voted_for : Option String
  log : List LogEntry
  commit_index : Int
  last_applied : Int
  state : Role
  leader_id : Option String
  next_index : List (String × Int)
  match_index : List (String × Int)
  kv_store : List (String × String)
  last_heartbeat : Nat
  blocked_peers : List String
deriving DecidableEq, Repr

/-- Model of `log[i]` for a Python index that the code keeps non-negative. -/
def getEntry (log : List LogEntry) (i : Int) : Option LogEntry :=
  if 0 ≤ i then log.get? i.toNat else none

/-- Address lookup `self.peers[pid]`. -/
def peerAddr (peers : List (String × String)) (pid : String) : Option String :=
  (peers.find? (fun p => p.1 == pid)).map (fun p => p.2)

/-- The inbound partition check: the sender is a known peer whose address
is in `blocked_peers`. -/
def inboundBlocked (s : RaftState) (pid : String) : Bool :=
  match peerAddr s.peers pid with
  | some a => s.blocked_peers.contains a
  | none => false

/-- The `RequestVoteRequest` message. -/
structure RequestVoteRequest where
  term : Nat
  candidate_id : String
  last_log_index : Int
  last_log_term : Nat
deriving DecidableEq, Repr

/-- The `RequestVoteResponse` message. -/
structure RequestVoteResponse where
  term : Nat
  vote_granted : Bool
deriving DecidableEq, Repr

/-- The higher-term adoption at the top of `RaftNode.RequestVote`: on a
request with a term above `current_term`, adopt it, clear the vote, become
Follower. -/
def rvAdopt (s : RaftState) (req : RequestVoteRequest) : RaftState :=
  if s.current_term < req.term then
    { s with current_term := req.term, voted_for := none, state := Role.Follower }
  else s

/-- The vote decision of `RaftNode.RequestVote` after term adoption. -/
def rvBody (s1 : RaftState) (req : RequestVoteRequest) :
    RaftState × RequestVoteResponse :=
  if req.term < s1.current_term then (s1, ⟨s1.current_term, false⟩)
  else if s1.voted_for = none ∨ s1.voted_for = some req.candidate_id then
    ({ s1 with voted_for := some req.candidate_id }, ⟨s1.current_term, true⟩)
  else (s1, ⟨s1.current_term, false⟩)

/-- Model of `RaftNode.RequestVote`.  Note that the handler never reads the clock:
`last_heartbeat` is untouched on every path. -/
def RequestVote (s : RaftState) (req : RequestVoteRequest) :
    RaftState × RequestVoteResponse :=
  if inboundBlocked s req.candidate_id then (s, ⟨s.current_term, false⟩)
  else rvBody (rvAdopt s req) req

/-- The `AppendEntriesRequest` message. -/
structure AppendEntriesRequest where
  term : Nat
  leader_id : String
  prev_log_index : Int
  prev_log_term : Nat
  entries : List LogEntry
  leader_commit : Int
deriving DecidableEq, Repr

/-- The `AppendEntriesResponse` message. -/
structure AppendEntriesResponse where
  term : Nat
  success : Bool
deriving DecidableEq, Repr

/-- The log reconciliation loop of `RaftNode.AppendEntries` (step 2): walk
the new entries starting at index `prev_log_index + 1`; on a term conflict
truncate the log there and append, past the end of the log append.  The
caller only reaches this with `prev_log_index ≥ -1`, so `idx ≥ 0`. -/
def reconcile (log : List LogEntry) (idx : Int) (entries : List LogEntry) :
    List LogEntry :=
  match entries with
  | [] => log
  | e :: rest =>
    let log' :=
      match getEntry log idx with
      | some old => if old.term ≠ e.term then log.take idx.toNat ++ [e] else log
      | none => log ++ [e]
    reconcile log' (idx + 1) rest

/-- Body of the `while last_applied < commit_index` loop of
`RaftNode.apply_committed_logs`, with explicit fuel.  The `none` branch
models the `IndexError` Python would raise after having incremented
`last_applied`; it never fires at the two call sites, which keep
`commit_index < len(log)`. -/
def applyAux : Nat → RaftState → RaftState
  | 0, s => s
  | n + 1, s =>
    if s.last_applied < s.commit_index then
      match getEntry s.log (s.last_applied + 1) with
      | some e =>
        applyAux n
          { s with
              last_applied := s.last_applied + 1
              kv_store := setAssoc s.kv_store e.key e.value }
      | none => { s with last_applied := s.last_applied + 1 }
    else s

/-- Model of `RaftNode.apply_committed_logs`. -/
def apply_committed_logs (s : RaftState) : RaftState :=
  applyAux (s.commit_index - s.last_applied).toNat s

/-- The Python iteration `range(len(log) - 1, commit_index, -1)`:
descending indices from `len(log) - 1` down to `commit_index + 1`. -/
def scanIdxs (len : Nat) (ci : Int) : List Int :=
  (List.range (((len : Int) - 1 - ci).toNat)).map
    (fun k : Nat => (len : Int) - 1 - (k : Int))

/-- The commit condition of `RaftNode.update_commit_index` at index `i`:
`count > (len(peers) + 1) // 2` where `count` is 1 (the leader itself) plus
the peers with `match_index[peer] >= i`, and `log[i].term == current_term`.
`count > ⌊N/2⌋` is exactly "strict majority of the N = len(peers)+1 nodes". -/
def commitCond (s : RaftState) (i : Int) : Bool :=
  decide ((s.peers.length + 1) / 2 <
      1 + (s.match_index.filter (fun p => decide (i ≤ p.2))).length) &&
  match getEntry s.log i with
  | some e => e.term == s.current_term
  | none => false

/-- Model of `RaftNode.update_commit_index`: scan from the log tail down to
`commit_index + 1`; at the first index satisfying `commitCond`, set
`commit_index`, apply, and `break`. -/
def update_commit_index (s : RaftState) : RaftState :=
  match (scanIdxs s.log.length s.commit_index).find? (commitCond s) with
  | some i => apply_committed_logs { s with commit_index := i }
  | none => s

/-- The mutation of `RaftNode.AppendEntries` once the partition and term
guards pass: become Follower, record the leader, adopt the term, reset the
election timer (`now` models `time.time()`). -/
def aeAccept (s : RaftState) (req : AppendEntriesRequest) (now : Nat) : RaftState :=
  { s with
      state := Role.Follower
      leader_id := some req.leader_id
      current_term := req.term
      last_heartbeat := now }

/-- The `prev_log_index` / `prev_log_term` consistency check (step 1). -/
def prevOk (s : RaftState) (req : AppendEntriesRequest) : Bool :=
  if req.prev_log_index < 0 then true
  else if (s.log.length : Int) ≤ req.prev_log_index then false
  else
    match getEntry s.log req.prev_log_index with
    | some e => e.term == req.prev_log_term
    | none => false

/-- Steps 2–3 of `RaftNode.AppendEntries`: reconcile the log, then, when
`leader_commit > commit_index`, move `commit_index` to
`min(leader_commit, len(log) - 1)` and apply. -/
def aeApply (s : RaftState) (req : AppendEntriesRequest) : RaftState :=
  if s.commit_index < req.leader_commit then
    apply_committed_logs
      { s with
          log := reconcile s.log (req.prev_log_index + 1) req.entries
          commit_index := min req.leader_commit
            (((reconcile s.log (req.prev_log_index + 1) req.entries).length : Int) - 1) }
  else { s with log := reconcile s.log (req.prev_log_index + 1) req.entries }

/-- Model of `RaftNode.AppendEntries` (inbound handler).  Every state mutation the
Python code performs before an early `return` is kept in that branch's
result. -/
def AppendEntries (s : RaftState) (req : AppendEntriesRequest) (now : Nat) :
    RaftState × AppendEntriesResponse :=
  if inboundBlocked s req.leader_id then (s, ⟨s.current_term, false⟩)
  else if req.term < s.current_term then (s, ⟨s.current_term, false⟩)
  else if prevOk (aeAccept s req now) req then
    (aeApply (aeAccept s req now) req,
     ⟨(aeApply (aeAccept s req now) req).current_term, true⟩)
  else (aeAccept s req now, ⟨(aeAccept s req now).current_term, false⟩)

/-- Model of `RaftNode.ClientSet`. -/
def ClientSet (s : RaftState) (key value : String) : RaftState × Bool :=
  if s.state ≠ Role.Leader then (s, false)
  else ({ s with log := s.log ++ [⟨s.current_term, key, value⟩] }, true)

/-- The state mutation performed under the lock when the election timer
fires in `RaftNode.election_loop`: become Candidate, increment the term,
vote for self. -/
def startElection (s : RaftState) : RaftState :=
  { s with
      state := Role.Candidate
      current_term := s.current_term + 1
      voted_for := some s.node_id }

/-- One handled request or internal transition of a RLog node, as
enumerated by the monotonicity claim.  AppendEntries requests are the ones
the leader code can construct, i.e. `prev_log_index = next_index - 1 ≥ -1`
(Python's negative-index wraparound for smaller values is not modelled). -/
inductive RaftStep : RaftState → RaftState → Prop
  | requestVote (s : RaftState) (req : RequestVoteRequest) :
      RaftStep s (RequestVote s req).1
  | appendEntries (s : RaftState) (req : AppendEntriesRequest) (now : Nat)
      (hprev : -1 ≤ req.prev_log_index) :
      RaftStep s (AppendEntries s req now).1
  | clientSet (s : RaftState) (k v : String) :
      RaftStep s (ClientSet s k v).1
  | electionStart (s : RaftState) :
      RaftStep s (startElection s)
  | commitAdvance (s : RaftState) :
      RaftStep s (update_commit_index s)
  | applyStep (s : RaftState) :
      RaftStep s (apply_committed_logs s)

/-! ## Basic lemmas about the RLog embedding -/

/-- The apply loop changes only `last_applied` (never downward) and
`kv_store`. -/
theorem applyAux_effects (n : Nat) (s : RaftState) :
    (applyAux n s).current_term = s.current_term ∧
    (applyAux n s).commit_index = s.commit_index ∧
    (applyAux n s).log = s.log ∧
    (applyAux n s).last_heartbeat = s.last_heartbeat ∧
    (applyAux n s).state = s.state ∧
    s.last_applied ≤ (applyAux n s).last_applied := by
  induction n generalizing s with
  | zero => exact ⟨rfl, rfl, rfl, rfl, rfl, le_refl _⟩
  | succ n ih =>
    unfold applyAux
    split
    · cases hge : getEntry s.log (s.last_applied + 1) with
      | some e =>
        have h := ih
          { s with
              last_applied := s.last_applied + 1
              kv_store := setAssoc s.kv_store e.key e.value }
        refine ⟨h.1, h.2.1, h.2.2.1, h.2.2.2.1, h.2.2.2.2.1, ?_⟩
        exact le_trans (by omega : s.last_applied ≤ s.last_applied + 1) h.2.2.2.2.2
      | none =>
        refine ⟨rfl, rfl, rfl, rfl, rfl, ?_⟩
        show s.last_applied ≤ s.last_applied + 1
        omega
    · exact ⟨rfl, rfl, rfl, rfl, rfl, le_refl _⟩

/-- Lemma: `apply_committed_logs` changes only `last_applied` (never downward) and
`kv_store`. -/
theorem apply_committed_logs_effects (s : RaftState) :
    (apply_committed_logs s).current_term = s.current_term ∧
    (apply_committed_logs s).commit_index = s.commit_index ∧
    (apply_committed_logs s).log = s.log ∧
    (apply_committed_logs s).last_heartbeat = s.last_heartbeat ∧
    (apply_committed_logs s).state = s.state ∧
    s.last_applied ≤ (apply_committed_logs s).last_applied :=
  applyAux_effects _ s

/-- Indices scanned by `update_commit_index` lie strictly between
`commit_index` and `len(log)`. -/
theorem scanIdxs_mem {len : Nat} {ci i : Int} (h : i ∈ scanIdxs len ci) :
    ci < i ∧ i ≤ (len : Int) - 1 := by
  unfold scanIdxs at h
  simp only [List.mem_map, List.mem_range] at h
  obtain ⟨k, hk, rfl⟩ := h
  omega

/-! ## C1 — ClientSet acknowledgment timing -/

/-- A Leader with one peer and an empty log. -/
def raftLeader1 : RaftState :=
  { node_id := "node1"
    peers := [("node2", "localhost:5002")]
    current_term := 1
    voted_for := some "node1"
    log := []
    commit_index := -1
    last_applied := -1
    state := Role.Leader
    leader_id := some "node1"
    next_index := [("node2", 0)]
    match_index := [("node2", -1)]
    kv_store := []
    last_heartbeat := 0
    blocked_peers := [] }

/-- C1 counterexample: the Leader's `ClientSet` replies `success=true`
immediately after appending; in the reply-time state the new entry at index
0 is not applied (`commit_index` and `last_applied` are still `-1`, the
kv-store untouched), so the acknowledgement is not delayed until the entry
is applied via the Leader's own commit_index advancement. -/
theorem clientset_acks_before_apply :
    (ClientSet raftLeader1 "x" "1").2 = true ∧
    (ClientSet raftLeader1 "x" "1").1.log = [⟨raftLeader1.current_term, "x", "1"⟩] ∧
    (ClientSet raftLeader1 "x" "1").1.commit_index = -1 ∧
    (ClientSet raftLeader1 "x" "1").1.last_applied = -1 ∧
    (ClientSet raftLeader1 "x" "1").1.kv_store = [] := by
  decide

/-- C1 (amended): a Leader's ClientSet appends `(current_term, key, value)`
to the log and replies `success=true` at once, without waiting for the
entry to be committed or applied (`commit_index`, `last_applied` and
`kv_store` are unchanged by the call); a non-Leader replies `success=false`
and leaves the whole state, in particular the log, unchanged. -/
theorem clientset_spec (s : RaftState) (k v : String) :
    (s.state = Role.Leader →
      (ClientSet s k v).2 = true ∧
      (ClientSet s k v).1 = { s with log := s.log ++ [⟨s.current_term, k, v⟩] }) ∧
    (s.state ≠ Role.Leader →
      (ClientSet s k v).2 = false ∧ (ClientSet s k v).1 = s) := by
  unfold ClientSet
  constructor <;> intro h
  · simp [h]
  · simp [h]

/-- Witness for the amended C1 at a concrete Leader state. -/
theorem clientset_spec_witness :
    (ClientSet raftLeader1 "x" "1").2 = true ∧
    (ClientSet raftLeader1 "x" "1").1 =
      { raftLeader1 with
          log := raftLeader1.log ++ [⟨raftLeader1.current_term, "x", "1"⟩] } :=
  (clientset_spec raftLeader1 "x" "1").1 (by decide)

/-! ## C3 — Leader commit rule -/

/-- A 3-node Leader whose single entry is replicated on both peers. -/
def raftLeader3 : RaftState :=
  { node_id := "node1"
    peers := [("node2", "a2"), ("node3", "a3")]
    current_term := 1
    voted_for := some "node1"
    log := [⟨1, "a", "1"⟩]
    commit_index := -1
    last_applied := -1
    state := Role.Leader
    leader_id := some "node1"
    next_index := [("node2", 1), ("node3", 1)]
    match_index := [("node2", 0), ("node3", 0)]
    kv_store := []
    last_heartbeat := 0
    blocked_peers := [] }

/-- C3: whenever `update_commit_index` changes `commit_index`, the new
value `i` lies strictly between the old `commit_index` and `len(log)`, a
strict majority of the cluster has replicated index `i` (1 for the Leader
itself — whose own implicit match `len(log) - 1` is `≥ i` for every scanned
`i` — plus every peer with `match_index[p] ≥ i`), and the entry at `i`
carries `current_term`; in particular commit never advances onto an entry
of a different term. -/
theorem leader_commit_rule (s : RaftState)
    (hchange : (update_commit_index s).commit_index ≠ s.commit_index) :
    ∃ i, (update_commit_index s).commit_index = i ∧
      s.commit_index < i ∧ i ≤ (s.log.length : Int) - 1 ∧
      (s.peers.length + 1) / 2 <
        1 + (s.match_index.filter (fun p => decide (i ≤ p.2))).length ∧
      ∃ e, getEntry s.log i = some e ∧ e.term = s.current_term := by
  cases hf : (scanIdxs s.log.length s.commit_index).find? (commitCond s) with
  | none =>
    exfalso
    apply hchange
    unfold update_commit_index
    rw [hf]
  | some i =>
    have hres :
        update_commit_index s = apply_committed_logs { s with commit_index := i } := by
      unfold update_commit_index
      rw [hf]
    rw [hres]
    have hmem : i ∈ scanIdxs s.log.length s.commit_index :=
      List.mem_of_find?_eq_some hf
    have hcond : commitCond s i = true := List.find?_some hf
    obtain ⟨h1, h2⟩ := scanIdxs_mem hmem
    unfold commitCond at hcond
    rw [Bool.and_eq_true] at hcond
    have hmaj := of_decide_eq_true hcond.1
    have hterm := hcond.2
    refine ⟨i, (apply_committed_logs_effects _).2.1, h1, h2, hmaj, ?_⟩
    cases hge : getEntry s.log i with
    | none => rw [hge] at hterm; simp at hterm
    | some e =>
      rw [hge] at hterm
      exact ⟨e, rfl, beq_iff_eq.mp hterm⟩

/-- Witness for C3: the concrete Leader `raftLeader3` advances its commit
index (to 0), and the theorem's majority and term conditions hold there. -/
theorem leader_commit_rule_witness :
    ∃ i, (update_commit_index raftLeader3).commit_index = i ∧
      raftLeader3.commit_index < i ∧ i ≤ (raftLeader3.log.length : Int) - 1 ∧
      (raftLeader3.peers.length + 1) / 2 <
        1 + (raftLeader3.match_index.filter (fun p => decide (i ≤ p.2))).length ∧
      ∃ e, getEntry raftLeader3.log i = some e ∧ e.term = raftLeader3.current_term :=
  leader_commit_rule raftLeader3 (by decide)

/-! ## C2 — Monotonicity of current_term, commit_index, last_applied -/

/-- Lemma: `RequestVote` changes only `current_term` (upward), `voted_for` and
`state`. -/
theorem RequestVote_effects (s : RaftState) (req : RequestVoteRequest) :
    s.current_term ≤ (RequestVote s req).1.current_term ∧
    (RequestVote s req).1.commit_index = s.commit_index ∧
    (RequestVote s req).1.last_applied = s.last_applied ∧
    (RequestVote s req).1.log = s.log ∧
    (RequestVote s req).1.last_heartbeat = s.last_heartbeat := by
  unfold RequestVote rvBody rvAdopt
  split
  · exact ⟨le_refl _, rfl, rfl, rfl, rfl⟩
  · split <;> split <;>
      first
        | exact ⟨le_of_lt (by assumption), rfl, rfl, rfl, rfl⟩
        | exact ⟨le_refl _, rfl, rfl, rfl, rfl⟩
        | split <;>
            first
              | exact ⟨le_of_lt (by assumption), rfl, rfl, rfl, rfl⟩
              | exact ⟨le_refl _, rfl, rfl, rfl, rfl⟩

/-- Lemma: `aeApply` keeps the term and the heartbeat, reconciles the log, never
rewinds `last_applied`, and never rewinds `commit_index` as long as the
reconciled log still reaches it. -/
theorem aeApply_effects (s : RaftState) (req : AppendEntriesRequest) :
    (aeApply s req).current_term = s.current_term ∧
    s.last_applied ≤ (aeApply s req).last_applied ∧
    (aeApply s req).log = reconcile s.log (req.prev_log_index + 1) req.entries ∧
    (aeApply s req).last_heartbeat = s.last_heartbeat ∧
    (s.commit_index ≤
        ((reconcile s.log (req.prev_log_index + 1) req.entries).length : Int) - 1 →
      s.commit_index ≤ (aeApply s req).commit_index) := by
  unfold aeApply
  split
  · rename_i hlt
    have he := apply_committed_logs_effects
      { s with
          log := reconcile s.log (req.prev_log_index + 1) req.entries
          commit_index := min req.leader_commit
            (((reconcile s.log (req.prev_log_index + 1) req.entries).length : Int) - 1) }
    refine ⟨he.1, he.2.2.2.2.2, he.2.2.1, he.2.2.2.1, fun hle => ?_⟩
    rw [he.2.1]
    exact le_min (le_of_lt hlt) hle
  · exact ⟨rfl, le_refl _, rfl, rfl, fun _ => le_refl _⟩

/-- C2 counterexample setup: a Follower holding two committed entries of
term 1. -/
def raftFollower2 : RaftState :=
  { node_id := "node3"
    peers := [("node2", "a2")]
    current_term := 1
    voted_for := none
    log := [⟨1, "a", "1"⟩, ⟨1, "b", "2"⟩]
    commit_index := 1
    last_applied := 1
    state := Role.Follower
    leader_id := some "node2"
    next_index := []
    match_index := []
    kv_store := [("a", "1"), ("b", "2")]
    last_heartbeat := 0
    blocked_peers := [] }

/-- An AppendEntries whose first entry conflicts at index 0 and whose
`leader_commit` exceeds the receiver's `commit_index`. -/
def raftConflictReq : AppendEntriesRequest :=
  { term := 1
    leader_id := "node2"
    prev_log_index := -1
    prev_log_term := 0
    entries := [⟨2, "c", "3"⟩]
    leader_commit := 2 }

/-- C2 counterexample: handling `raftConflictReq` truncates the log below
the commit point, and step 6 then sets `commit_index = min(2, 0) = 0 < 1`:
`commit_index` is not monotone across AppendEntries. -/
theorem commit_index_can_decrease :
    (AppendEntries raftFollower2 raftConflictReq 5).1.commit_index = 0 ∧
    raftFollower2.commit_index = 1 := by decide

/-- C2 (amended): across every handled request and internal transition,
`current_term` and `last_applied` never decrease; `commit_index` also never
decreases *except* in an AppendEntries whose log reconciliation truncates
the log below `commit_index + 1` entries — equivalently, whenever the
post-state log still extends to the old `commit_index`, `commit_index` is
monotone too (all transitions other than AppendEntries leave it unchanged
or raise it, and leave the log no shorter). -/
theorem rlog_monotonic (s s' : RaftState) (h : RaftStep s s') :
    s.current_term ≤ s'.current_term ∧
    s.last_applied ≤ s'.last_applied ∧
    (s.commit_index ≤ (s'.log.length : Int) - 1 →
      s.commit_index ≤ s'.commit_index) := by
  cases h with
  | requestVote req =>
    have he := RequestVote_effects s req
    exact ⟨he.1, le_of_eq he.2.2.1.symm, fun _ => le_of_eq he.2.1.symm⟩
  | appendEntries req now hprev =>
    unfold AppendEntries
    split
    · exact ⟨le_refl _, le_refl _, fun _ => le_refl _⟩
    · split
      · exact ⟨le_refl _, le_refl _, fun _ => le_refl _⟩
      · rename_i hterm hprevok
        have hle : s.current_term ≤ req.term := by omega
        split
        · have he := aeApply_effects (aeAccept s req now) req
          refine ⟨le_trans hle (le_of_eq he.1.symm), he.2.1, fun hc => ?_⟩
          apply he.2.2.2.2
          rw [← he.2.2.1]
          exact hc
        · exact ⟨hle, le_refl _, fun _ => le_refl _⟩
  | clientSet k v =>
    unfold ClientSet
    split
    · exact ⟨le_refl _, le_refl _, fun _ => le_refl _⟩
    · exact ⟨le_refl _, le_refl _, fun _ => le_refl _⟩
  | electionStart =>
    refine ⟨?_, le_refl _, fun _ => le_refl _⟩
    show s.current_term ≤ s.current_term + 1
    omega
  | commitAdvance =>
    cases hf : (scanIdxs s.log.length s.commit_index).find? (commitCond s) with
    | none =>
      have hres : update_commit_index s = s := by
        unfold update_commit_index; rw [hf]
      rw [hres]
      exact ⟨le_refl _, le_refl _, fun _ => le_refl _⟩
    | some i =>
      have hres :
          update_commit_index s = apply_committed_logs { s with commit_index := i } := by
        unfold update_commit_index; rw [hf]
      rw [hres]
      have hmem := scanIdxs_mem (List.mem_of_find?_eq_some hf)
      have he := apply_committed_logs_effects { s with commit_index := i }
      refine ⟨le_of_eq he.1.symm, he.2.2.2.2.2, fun _ => ?_⟩
      rw [he.2.1]
      exact le_of_lt hmem.1
  | applyStep =>
    have he := apply_committed_logs_effects s
    exact ⟨le_of_eq he.1.symm, he.2.2.2.2.2, fun _ => le_of_eq he.2.1.symm⟩

/-- Witness for the amended C2 at a concrete ClientSet step. -/
theorem rlog_monotonic_witness :
    raftLeader1.current_term ≤ (ClientSet raftLeader1 "y" "2").1.current_term ∧
    raftLeader1.last_applied ≤ (ClientSet raftLeader1 "y" "2").1.last_applied ∧
    (raftLeader1.commit_index ≤ ((ClientSet raftLeader1 "y" "2").1.log.length : Int) - 1 →
      raftLeader1.commit_index ≤ (ClientSet raftLeader1 "y" "2").1.commit_index) :=
  rlog_monotonic raftLeader1 _ (RaftStep.clientSet raftLeader1 "y" "2")

/-! ## C4 — committed entries and truncation -/

/-- A `some` result of `List.get?` implies the index is in bounds. -/
theorem get_some_lt {α : Type} {l : List α} {n : Nat} {a : α}
    (h : l.get? n = some a) : n < l.length := by
  by_contra hge
  push_neg at hge
  rw [List.get?_eq_none.mpr hge] at h
  exact Option.noConfusion h

/-- Appending one entry keeps every existing entry readable. -/
theorem getEntry_append_one (log : List LogEntry) (x : LogEntry) (j : Int)
    (e : LogEntry) (he : getEntry log j = some e) :
    getEntry (log ++ [x]) j = some e := by
  unfold getEntry at he ⊢
  split at he
  · rename_i hj0
    rw [if_pos hj0]
    rw [List.get?_append (get_some_lt he)]
    exact he
  · exact Option.noConfusion he

/-- Truncating at `n` and appending keeps every entry below `n`. -/
theorem getEntry_take_append (log : List LogEntry) (x : LogEntry) (n : Nat)
    (j : Int) (hjn : j < (n : Int)) (e : LogEntry) (he : getEntry log j = some e) :
    getEntry (log.take n ++ [x]) j = some e := by
  unfold getEntry at he ⊢
  split at he
  · rename_i hj0
    rw [if_pos hj0]
    have hjlen : j.toNat < log.length := get_some_lt he
    have hjn' : j.toNat < n := by omega
    have hlt : j.toNat < (log.take n).length := by
      rw [List.length_take]
      omega
    rw [List.get?_append hlt, List.get?_take hjn']
    exact he
  · exact Option.noConfusion he

/-- Reconciliation preserves every entry at an index `≤ C` provided no
incoming entry at an index `≤ C` conflicts in term with the entry already
stored there. -/
theorem reconcile_preserve (C : Int) (entries : List LogEntry) :
    ∀ (log : List LogEntry) (idx : Int), 0 ≤ idx →
    (∀ k : Nat, ∀ en, entries.get? k = some en → idx + (k : Int) ≤ C →
        ∀ e, getEntry log (idx + (k : Int)) = some e → e.term = en.term) →
    ∀ j, j ≤ C → ∀ e, getEntry log j = some e →
      getEntry (reconcile log idx entries) j = some e := by
  induction entries with
  | nil =>
    intro log idx _ _ j _ e he
    simpa [reconcile] using he
  | cons en rest ih =>
    intro log idx hidx hc j hj e he
    rw [show reconcile log idx (en :: rest) =
        reconcile
          (match getEntry log idx with
            | some old => if old.term ≠ en.term then log.take idx.toNat ++ [en] else log
            | none => log ++ [en])
          (idx + 1) rest from rfl]
    cases hcur : getEntry log idx with
    | some old =>
      dsimp only
      by_cases hterm : old.term = en.term
      · rw [if_neg (by simp [hterm])]
        refine ih log (idx + 1) (by omega) ?_ j hj e he
        intro k en' hk hle e' he'
        have harith : idx + ((k : Int) + 1) = idx + 1 + (k : Int) := by ring
        refine hc (k + 1) en' (by simpa using hk) ?_ e' ?_
        · push_cast
          omega
        · push_cast
          rw [harith]
          exact he'
      · rw [if_pos hterm]
        have hCidx : C < idx := by
          by_contra hle
          push_neg at hle
          exact hterm (hc 0 en (by simp) (by simpa using hle) old (by simpa using hcur))
        refine ih (log.take idx.toNat ++ [en]) (idx + 1) (by omega) ?_ j hj e ?_
        · intro k en' hk hle e' he'
          exfalso
          push_cast at hle
          omega
        · exact getEntry_take_append log en idx.toNat j (by omega) e he
    | none =>
      dsimp only
      have hlen : log.length ≤ idx.toNat := by
        unfold getEntry at hcur
        rw [if_pos hidx] at hcur
        exact List.get?_eq_none.mp hcur
      refine ih (log ++ [en]) (idx + 1) (by omega) ?_ j hj e
        (getEntry_append_one log en j e he)
      intro k en' hk hle e' he'
      exfalso
      unfold getEntry at he'
      rw [if_pos (by omega)] at he'
      have hnone : (log ++ [en]).length ≤ (idx + 1 + (k : Int)).toNat := by
        rw [List.length_append]
        simp only [List.length_singleton]
        omega
      rw [List.get?_eq_none.mpr hnone] at he'
      exact Option.noConfusion he'

/-- Request-side hypothesis of the amended C4: no entry the request carries
at an index `≤ commit_index` disagrees in term with the entry already
stored at that index. -/
def noCommittedConflict (s : RaftState) (req : AppendEntriesRequest) : Bool :=
  (List.range req.entries.length).all (fun k =>
    match req.entries.get? k, getEntry s.log (req.prev_log_index + 1 + (k : Int)) with
    | some en, some e =>
      decide (s.commit_index < req.prev_log_index + 1 + (k : Int)) || (e.term == en.term)
    | _, _ => true)

/-- C4 (amended): for every AppendEntries request with
`prev_log_index ≥ -1` that does not carry a conflicting-term entry at an
index `≤ commit_index` (in particular whenever
`prev_log_index ≥ commit_index`), every log index `≤ commit_index` that
held an entry before the call holds the identical entry after the call;
reconciliation only ever truncates from the first conflicting index
(`≥ prev_log_index + 1`) to the tail. -/
theorem committed_entries_preserved (s : RaftState) (req : AppendEntriesRequest)
    (now : Nat) (hprev : -1 ≤ req.prev_log_index)
    (hnc : noCommittedConflict s req = true) :
    ∀ j, j ≤ s.commit_index → ∀ e, getEntry s.log j = some e →
      getEntry (AppendEntries s req now).1.log j = some e := by
  intro j hj e he
  unfold AppendEntries
  split
  · exact he
  · split
    · exact he
    · split
      · rw [(aeApply_effects (aeAccept s req now) req).2.2.1]
        refine reconcile_preserve s.commit_index req.entries s.log
          (req.prev_log_index + 1) (by omega) ?_ j hj e he
        intro k en hk hle e' he'
        have hk' : k < req.entries.length := get_some_lt hk
        have hall := List.all_eq_true.mp hnc k (List.mem_range.mpr hk')
        simp only at hall
        rw [hk] at hall
        have harith : req.prev_log_index + 1 + (k : Int) =
            req.prev_log_index + 1 + (k : Int) := rfl
        rw [show getEntry s.log (req.prev_log_index + 1 + (k : Int)) = some e' from by
          rw [← he']] at hall
        rw [Bool.or_eq_true] at hall
        cases hall with
        | inl hdec =>
          have := of_decide_eq_true hdec
          omega
        | inr hbeq => exact beq_iff_eq.mp hbeq
      · exact he

/-- C4 counterexample setup: one committed entry of term 1, and a request
whose first entry conflicts at the committed index 0. -/
def raftFollower4 : RaftState :=
  { node_id := "node3"
    peers := [("node2", "a2")]
    current_term := 1
    voted_for := none
    log := [⟨1, "a", "1"⟩]
    commit_index := 0
    last_applied := 0
    state := Role.Follower
    leader_id := some "node2"
    next_index := []
    match_index := []
    kv_store := [("a", "1")]
    last_heartbeat := 0
    blocked_peers := [] }

def raftOverwriteReq : AppendEntriesRequest :=
  { term := 1
    leader_id := "node2"
    prev_log_index := -1
    prev_log_term := 0
    entries := [⟨2, "b", "2"⟩]
    leader_commit := -1 }

/-- C4 counterexample: handling `raftOverwriteReq` replaces the committed
entry at index 0 — a committed entry is truncated and overwritten. -/
theorem committed_entry_overwritten :
    0 ≤ raftFollower4.commit_index ∧
    getEntry raftFollower4.log 0 = some ⟨1, "a", "1"⟩ ∧
    getEntry (AppendEntries raftFollower4 raftOverwriteReq 0).1.log 0 =
      some ⟨2, "b", "2"⟩ := by decide

/-- C4 witness setup: the request conflicts only above the commit point. -/
def raftFollower4w : RaftState :=
  { raftFollower4 with
      log := [⟨1, "a", "1"⟩, ⟨1, "b", "2"⟩]
      kv_store := [("a", "1")] }

def raftTailReq : AppendEntriesRequest :=
  { term := 1
    leader_id := "node2"
    prev_log_index := 0
    prev_log_term := 1
    entries := [⟨2, "c", "3"⟩]
    leader_commit := 0 }

/-- Witness for the amended C4: a conflict strictly above `commit_index`
leaves the committed entry at index 0 in place. -/
theorem committed_entries_preserved_witness :
    getEntry (AppendEntries raftFollower4w raftTailReq 0).1.log 0 =
      some ⟨1, "a", "1"⟩ :=
  committed_entries_preserved raftFollower4w raftTailReq 0 (by decide) (by decide)
    0 (by decide) ⟨1, "a", "1"⟩ (by decide)

/-! ## C6 — election timer reset on vote grant -/

/-- A fresh Follower that will grant its vote. -/
def raftFollower6 : RaftState :=
  { node_id := "node1"
    peers := []
    current_term := 0
    voted_for := none
    log := []
    commit_index := -1
    last_applied := -1
    state := Role.Follower
    leader_id := none
    next_index := []
    match_index := []
    kv_store := []
    last_heartbeat := 0
    blocked_peers := [] }

def voteReq6 : RequestVoteRequest :=
  { term := 1, candidate_id := "node2", last_log_index := -1, last_log_term := 0 }

/-- C6 counterexample: the vote is granted, yet `last_heartbeat` keeps its
old value — the RequestVote handler never reads the clock at all, so
granting a vote does not reset the election timer. -/
theorem vote_grant_no_timer_reset :
    (RequestVote raftFollower6 voteReq6).2.vote_granted = true ∧
    (RequestVote raftFollower6 voteReq6).1.last_heartbeat =
      raftFollower6.last_heartbeat := by decide

/-- C6 (amended): RequestVote leaves `last_heartbeat` unchanged on every
path — in particular a granted vote does not reset the election timer;
only an AppendEntries that passes the partition and term checks sets
`last_heartbeat` to the time of handling. -/
theorem heartbeat_reset (s : RaftState) (req : RequestVoteRequest)
    (areq : AppendEntriesRequest) (now : Nat)
    (hb : inboundBlocked s areq.leader_id = false)
    (ht : s.current_term ≤ areq.term) :
    (RequestVote s req).1.last_heartbeat = s.last_heartbeat ∧
    (AppendEntries s areq now).1.last_heartbeat = now := by
  refine ⟨(RequestVote_effects s req).2.2.2.2, ?_⟩
  unfold AppendEntries
  rw [if_neg (by simp [hb])]
  rw [if_neg (by omega)]
  split
  · exact (aeApply_effects (aeAccept s areq now) areq).2.2.2.1
  · rfl

def aeReq6 : AppendEntriesRequest :=
  { term := 1
    leader_id := "node2"
    prev_log_index := -1
    prev_log_term := 0
    entries := []
    leader_commit := -1 }

/-- Witness for the amended C6 at time 7. -/
theorem heartbeat_reset_witness :
    (RequestVote raftFollower6 voteReq6).1.last_heartbeat =
      raftFollower6.last_heartbeat ∧
    (AppendEntries raftFollower6 aeReq6 7).1.last_heartbeat = 7 :=
  heartbeat_reset raftFollower6 voteReq6 aeReq6 7 (by decide) (by decide)

/-! ## C5 — PrePrepare accept-iff and rejection atomicity -/

/-- A string starting with a nonempty prefix is nonempty. -/
theorem append_ne_empty (a b : String) (h : a ≠ "") : a ++ b ≠ "" := by
  obtain ⟨as⟩ := a
  obtain ⟨bs⟩ := b
  intro he
  apply h
  have hdata : as ++ bs = ([] : List Char) := congrArg String.data he
  have hnil : as = [] := (List.append_eq_nil.mp hdata).1
  rw [hnil]

/-- Spec-side block-validity predicate of C5 (§4.2 Pre-prepare handling):
height is `last.height + 1`, previous-hash links to `last.block_hash`, and
the block hash is the SHA-256 of `data ‖ previous_hash ‖ decimal(height)`. -/
def blockValidSpec (s : PBFTState) (b : Block) : Prop :=
  match s.blockchain.getLast? with
  | some last =>
      b.block_height = last.block_height + 1 ∧
      b.previous_hash = last.block_hash ∧
      b.block_hash =
        sha256hex (strBytes (b.data ++ b.previous_hash ++ toString b.block_height))
  | none => False

/-- Lemma: `_verify_block` succeeds exactly on blocks satisfying the spec's three
validation clauses. -/
theorem verify_block_iff (s : PBFTState) (b : Block) :
    (verify_block s b).1 = true ↔ blockValidSpec s b := by
  unfold verify_block blockValidSpec
  cases s.blockchain.getLast? with
  | none => simp
  | some last =>
    dsimp only
    split
    · rename_i h1
      simp [h1]
    · rename_i h1
      push_neg at h1
      split
      · rename_i h2
        simp [h1, h2]
      · rename_i h2
        push_neg at h2
        split
        · rename_i h3
          simp only [compute_hash, h1, h2] at h3
          simp [h1, h2, h3]
        · rename_i h3
          push_neg at h3
          simp only [compute_hash, h1, h2] at h3
          simp [h1, h2, h3]

/-- Every reason string `_verify_block` can produce is nonempty. -/
theorem verify_block_reason_ne_empty (s : PBFTState) (b : Block) :
    (verify_block s b).2 ≠ "" := by
  unfold verify_block
  cases s.blockchain.getLast? with
  | none =>
    show ("no last block" : String) ≠ ""
    decide
  | some last =>
    dsimp only
    split
    · exact append_ne_empty _ _ (append_ne_empty _ _ (append_ne_empty _ _ (by decide)))
    · split
      · decide
      · split
        · decide
        · decide

/-- C5: a PrePrepare is accepted iff the node is not in silent-malicious
mode, the view matches, the sequence is exactly `current_sequence + 1`,
and the block validates (height, previous-hash linkage, hash binding);
every rejecting reply carries a nonempty reason and leaves the node state —
in particular sequence_number, pending_block, pre_prepare_log and
blockchain — completely unchanged. -/
theorem preprepare_accept_iff (s : PBFTState) (req : PrePrepareRequest)
    (hgen : s.blockchain ≠ []) :
    ((PrePrepare s req).2.accepted = true ↔
      (isSilent s = false ∧ req.view_number = s.view_number ∧
        req.sequence_number = s.sequence_number + 1 ∧ blockValidSpec s req.block)) ∧
    ((PrePrepare s req).2.accepted = false →
      (PrePrepare s req).2.reason ≠ "" ∧ (PrePrepare s req).1 = s) := by
  unfold PrePrepare
  by_cases hsil : isSilent s = true
  · rw [if_pos hsil]
    exact ⟨by simp [hsil],
      fun _ => ⟨by show ("Silent node" : String) ≠ ""; decide, rfl⟩⟩
  · rw [if_neg hsil]
    have hsil' : isSilent s = false := by simpa using hsil
    by_cases hview : req.view_number = s.view_number
    · rw [if_neg (by simp [hview])]
      by_cases hseq : req.sequence_number = s.sequence_number + 1
      · rw [if_neg (by simp [hseq])]
        by_cases hv : (verify_block s req.block).1 = true
        · rw [if_pos hv]
          constructor
          · exact ⟨fun _ => ⟨hsil', hview, hseq, (verify_block_iff s req.block).mp hv⟩,
              fun _ => rfl⟩
          · intro h
            simp at h
        · rw [if_neg hv]
          have hnv : ¬ blockValidSpec s req.block :=
            fun hbv => hv ((verify_block_iff s req.block).mpr hbv)
          constructor
          · constructor
            · intro h
              simp at h
            · rintro ⟨_, _, _, hbv⟩
              exact absurd hbv hnv
          · exact fun _ => ⟨verify_block_reason_ne_empty s req.block, rfl⟩
      · rw [if_pos hseq]
        constructor
        · constructor
          · intro h
            simp at h
          · rintro ⟨_, _, hs, _⟩
            exact absurd hs hseq
        · exact fun _ => ⟨by show ("Sequence mismatch" : String) ≠ ""; decide, rfl⟩
    · rw [if_pos hview]
      constructor
      · constructor
        · intro h
          simp at h
        · rintro ⟨_, hvw, _, _⟩
          exact absurd hvw hview
      · refine fun _ => ⟨?_, rfl⟩
        exact append_ne_empty _ _ (append_ne_empty _ _ (append_ne_empty _ _ (by decide)))

/-- A Replica state for the C5 witness. -/
def pbftReplica5 : PBFTState := initPBFT "node2" 4 false 0

/-- A PrePrepare with a mismatched view, rejected without state change. -/
def ppReq5 : PrePrepareRequest :=
  { view_number := 3
    sequence_number := 1
    block :=
      { block_height := 1
        previous_hash := "p"
        block_hash := "h"
        timestamp := 0
        data := "d"
        view_number := 3
        sequence_number := 1 }
    primary_id := "node1"
    signature := "node1" }

/-- Witness for C5 at a concrete Replica and request. -/
theorem preprepare_accept_iff_witness :
    ((PrePrepare pbftReplica5 ppReq5).2.accepted = true ↔
      (isSilent pbftReplica5 = false ∧ ppReq5.view_number = pbftReplica5.view_number ∧
        ppReq5.sequence_number = pbftReplica5.sequence_number + 1 ∧
        blockValidSpec pbftReplica5 ppReq5.block)) ∧
    ((PrePrepare pbftReplica5 ppReq5).2.accepted = false →
      (PrePrepare pbftReplica5 ppReq5).2.reason ≠ "" ∧
      (PrePrepare pbftReplica5 ppReq5).1 = pbftReplica5) :=
  preprepare_accept_iff pbftReplica5 ppReq5 (by unfold pbftReplica5 initPBFT; simp)

/-! ## C7 — block execution idempotence and pending_block -/

/-- A simple concrete block for the C7 scenarios. -/
def blkA : Block :=
  { block_height := 1
    previous_hash := "p"
    block_hash := "h"
    timestamp := 0
    data := "d"
    view_number := 0
    sequence_number := 1 }

/-- A node whose chain already contains `blkA` while `blkA` is still the
pending block. -/
def pbftDup7 : PBFTState :=
  { node_id := "node1"
    total_nodes := 5
    view_number := 0
    sequence_number := 1
    is_primary := true
    primary_id := some "node1"
    blockchain := [blkA]
    pending_block := some blkA
    pre_prepare_log := []
    prepare_log := []
    commit_log := []
    is_malicious := false
    malicious_type := none }

/-- C7 counterexample: executing a block whose hash is already on the chain
takes the early-return branch, which leaves `pending_block` still set —
execution does not clear the pending block in the skip case. -/
theorem execute_skip_keeps_pending :
    execute_block pbftDup7 blkA = pbftDup7 ∧
    (execute_block pbftDup7 blkA).pending_block = some blkA := by decide

/-- C7 (amended): executing `b` appends `b` to the blockchain and clears
`pending_block` when no block with `b`'s hash is present; when such a block
is already present, the call returns with the whole state — including
`pending_block` — unchanged. -/
theorem execute_block_spec (s : PBFTState) (b : Block) :
    (s.blockchain.any (fun x => x.block_hash == b.block_hash) = true →
      execute_block s b = s) ∧
    (s.blockchain.any (fun x => x.block_hash == b.block_hash) = false →
      execute_block s b =
        { s with blockchain := s.blockchain ++ [b], pending_block := none }) := by
  unfold execute_block
  constructor <;> intro h <;> simp [h]

/-- Witness for the amended C7 in the skip case. -/
theorem execute_block_spec_witness :
    execute_block pbftDup7 blkA = pbftDup7 :=
  (execute_block_spec pbftDup7 blkA).1 (by decide)

/-! ## C8 — hash binding and the genesis block -/

/-- C8: every hash the node computes is the lowercase-hex SHA-256 of the
UTF-8 bytes of `data ‖ previous_hash ‖ decimal(height)`: (i) the genesis
block has height 0, previous_hash of 64 zeros, data "Genesis Block",
view 0, sequence 0, and block_hash = SHA-256("genesis" ‖ "0"×64 ‖ "0"),
whose concrete lowercase-hex value is pinned; (ii) `_compute_hash` is that
SHA-256; (iii) the block an honest Primary constructs is hash-bound;
(iv) any block that passes `_verify_block` is hash-bound. -/
theorem hash_binding (now : Nat) :
    (create_genesis_block now).block_height = 0 ∧
    (create_genesis_block now).previous_hash = zeros64 ∧
    (create_genesis_block now).data = "Genesis Block" ∧
    (create_genesis_block now).view_number = 0 ∧
    (create_genesis_block now).sequence_number = 0 ∧
    (create_genesis_block now).block_hash =
      sha256hex (strBytes ("genesis" ++ zeros64 ++ "0")) ∧
    (create_genesis_block now).block_hash =
      "a2eb08a5d2f5a9aa55f5d4a1890c3e6dd9459b43ef532cb999d7b4276d249fd0" ∧
    (∀ data prev h, compute_hash data prev h =
      sha256hex (strBytes (data ++ prev ++ toString h))) ∧
    (∀ s data now2 last b,
      s.is_primary = true →
      (s.is_malicious && s.malicious_type == some "wrong_hash") = false →
      s.blockchain.getLast? = some last →
      (ClientSubmitBlock s data now2).1.pending_block = some b →
      b.block_hash =
        sha256hex (strBytes (b.data ++ b.previous_hash ++ toString b.block_height))) ∧
    (∀ s b, (verify_block s b).1 = true →
      b.block_hash =
        sha256hex (strBytes (b.data ++ b.previous_hash ++ toString b.block_height))) := by
  refine ⟨rfl, rfl, rfl, rfl, rfl, rfl, ?_, fun _ _ _ => rfl, ?_, ?_⟩
  · show compute_hash "genesis" zeros64 0 =
      "a2eb08a5d2f5a9aa55f5d4a1890c3e6dd9459b43ef532cb999d7b4276d249fd0"
    decide
  · intro s data now2 last b hp hmal hlast hpend
    unfold ClientSubmitBlock at hpend
    rw [if_neg (by simp [hp]), hlast] at hpend
    dsimp only at hpend
    rw [if_neg (by simp [hmal])] at hpend
    injection hpend with hb
    rw [← hb]
    rfl
  · intro s b hv
    have hbv := (verify_block_iff s b).mp hv
    unfold blockValidSpec at hbv
    cases hlast : s.blockchain.getLast? with
    | none => rw [hlast] at hbv; exact hbv.elim
    | some last => rw [hlast] at hbv; exact hbv.2.2

/-- A fresh Primary over 5 nodes, for the C8 witness. -/
def pbftPrimary8 : PBFTState := initPBFT "node1" 4 true 0

/-- The block the Primary constructs for `"Tx-1"` on top of genesis. -/
def blk8 : Block :=
  { block_height := 1
    previous_hash := (create_genesis_block 0).block_hash
    block_hash := compute_hash "Tx-1" (create_genesis_block 0).block_hash 1
    timestamp := 1
    data := "Tx-1"
    view_number := 0
    sequence_number := 1 }

/-- Witness for C8: the pinned genesis hash, and the hash binding of the
concrete block the Primary constructs. -/
theorem hash_binding_witness :
    (create_genesis_block 0).block_hash =
      "a2eb08a5d2f5a9aa55f5d4a1890c3e6dd9459b43ef532cb999d7b4276d249fd0" ∧
    blk8.block_hash =
      sha256hex (strBytes (blk8.data ++ blk8.previous_hash ++ toString blk8.block_height)) :=
  ⟨(hash_binding 0).2.2.2.2.2.2.1,
   (hash_binding 0).2.2.2.2.2.2.2.2.1 pbftPrimary8 "Tx-1" 1 (create_genesis_block 0)
     blk8 rfl rfl rfl rfl⟩

/-! ## C9 — non-primary submission redirect -/

/-- C9 counterexample: a Replica created by `__init__` stores
`primary_id = None` (and nothing ever updates it), so its rejection message
is literally "Not primary. Primary is None" — it does not name the
Primary's node id. -/
theorem notprimary_message_lacks_primary_id :
    (ClientSubmitBlock (initPBFT "node2" 4 false 0) "tx" 0).2.success = false ∧
    (ClientSubmitBlock (initPBFT "node2" 4 false 0) "tx" 0).2.message =
      "Not primary. Primary is None" ∧
    (initPBFT "node2" 4 false 0).primary_id = none := by decide

/-- C9 (amended): a non-Primary ClientSubmitBlock replies success=false,
block_height −1, and the message "Not primary. Primary is {primary_id}" —
where primary_id is the node's own stored field, which `__init__` leaves
`None` on every node not started as Primary, so the message does not
actually name the Primary — and leaves the state unchanged. -/
theorem notprimary_redirect (s : PBFTState) (data : String) (now : Nat)
    (h : s.is_primary = false) :
    (ClientSubmitBlock s data now).2.success = false ∧
    (ClientSubmitBlock s data now).2.message =
      "Not primary. Primary is " ++ optIdStr s.primary_id ∧
    (ClientSubmitBlock s data now).2.block_height = -1 ∧
    (ClientSubmitBlock s data now).1 = s ∧
    (∀ nid numPeers now0, (initPBFT nid numPeers false now0).primary_id = none) := by
  unfold ClientSubmitBlock
  rw [if_pos h]
  exact ⟨rfl, rfl, rfl, rfl, fun _ _ _ => rfl⟩

/-- Witness for the amended C9 at a concrete Replica. -/
theorem notprimary_redirect_witness :
    (ClientSubmitBlock (initPBFT "node3" 4 false 0) "tx" 0).2.success = false ∧
    (ClientSubmitBlock (initPBFT "node3" 4 false 0) "tx" 0).2.message =
      "Not primary. Primary is " ++ optIdStr (initPBFT "node3" 4 false 0).primary_id ∧
    (ClientSubmitBlock (initPBFT "node3" 4 false 0) "tx" 0).2.block_height = -1 ∧
    (ClientSubmitBlock (initPBFT "node3" 4 false 0) "tx" 0).1 =
      initPBFT "node3" 4 false 0 ∧
    (∀ nid numPeers now0, (initPBFT nid numPeers false now0).primary_id = none) :=
  notprimary_redirect (initPBFT "node3" 4 false 0) "tx" 0 rfl

/-! ## C10 — primary sequence divergence after a rejected round -/

/-- Lemma: `PrePrepare` never decreases `sequence_number`. -/
theorem PrePrepare_seq_mono (s : PBFTState) (req : PrePrepareRequest) :
    s.sequence_number ≤ ((PrePrepare s req).1).sequence_number := by
  unfold PrePrepare
  split
  · exact le_refl _
  · split
    · exact le_refl _
    · split
      · exact le_refl _
      · rename_i hseq
        push_neg at hseq
        split
        · show s.sequence_number ≤ req.sequence_number
          omega
        · exact le_refl _

/-- Lemma: `Prepare` never changes `sequence_number`. -/
theorem Prepare_seq_mono (s : PBFTState) (req : PhaseRequest) :
    s.sequence_number ≤ ((Prepare s req).1).sequence_number := by
  unfold Prepare
  split
  · exact le_refl _
  · split
    · exact le_refl _
    · exact le_refl _

/-- Lemma: `execute_block` never changes `sequence_number`. -/
theorem execute_block_seq_mono (s : PBFTState) (b : Block) :
    s.sequence_number ≤ (execute_block s b).sequence_number := by
  unfold execute_block
  split
  · exact le_refl _
  · exact le_refl _

/-- Lemma: `Commit` never changes `sequence_number`. -/
theorem Commit_seq_mono (s : PBFTState) (req : PhaseRequest) :
    s.sequence_number ≤ ((Commit s req).1).sequence_number := by
  unfold Commit
  split
  · exact le_refl _
  · split
    · exact le_refl _
    · dsimp only
      split
      · split
        · split
          · unfold execute_block
            split
            · exact le_refl _
            · exact le_refl _
          · exact le_refl _
        · exact le_refl _
      · exact le_refl _

/-- Lemma: `ClientSubmitBlock` never decreases `sequence_number`. -/
theorem ClientSubmitBlock_seq_mono (s : PBFTState) (data : String) (now : Nat) :
    s.sequence_number ≤ ((ClientSubmitBlock s data now).1).sequence_number := by
  unfold ClientSubmitBlock
  split
  · exact le_refl _
  · split
    · exact le_refl _
    · show s.sequence_number ≤ s.sequence_number + 1
      omega

/-- Lemma: `SetMaliciousBehavior` never changes `sequence_number`. -/
theorem SetMalicious_seq_mono (s : PBFTState) (req : MaliciousConfigRequest) :
    s.sequence_number ≤ ((SetMaliciousBehavior s req).1).sequence_number :=
  le_refl _

/-- The local effects of an accepted submission on the Primary. -/
theorem ClientSubmitBlock_accept (s : PBFTState) (data : String) (now : Nat)
    (last : Block) (hp : s.is_primary = true)
    (hlast : s.blockchain.getLast? = some last) :
    (ClientSubmitBlock s data now).2.success = true ∧
    ((ClientSubmitBlock s data now).1).sequence_number = s.sequence_number + 1 ∧
    (ClientSubmitBlock s data now).2.block_height = Int.ofNat (last.block_height + 1) ∧
    ∃ b, ((ClientSubmitBlock s data now).1).pending_block = some b ∧
      b.sequence_number = s.sequence_number + 1 ∧
      b.block_height = last.block_height + 1 ∧
      b.view_number = s.view_number ∧
      (ClientSubmitBlock s data now).1 =
        { s with sequence_number := s.sequence_number + 1, pending_block := some b } := by
  unfold ClientSubmitBlock
  rw [if_neg (by simp [hp]), hlast]
  exact ⟨rfl, rfl, rfl, _, rfl, rfl, rfl, rfl, rfl⟩

/-- One proposal round with the Primary strictly ahead: the honest Replica
rejects with "Sequence mismatch" and is unchanged, while the Primary moves
one further ahead with its other fields intact. -/
theorem proposalRound_diverged (ps rs : PBFTState) (data : String) (now : Nat)
    (hp : ps.is_primary = true) (hg : ps.blockchain ≠ [])
    (hs : isSilent rs = false) (hv : ps.view_number = rs.view_number)
    (hlt : rs.sequence_number < ps.sequence_number) :
    (proposalRound ps rs data now).2.2.accepted = false ∧
    (proposalRound ps rs data now).2.2.reason = "Sequence mismatch" ∧
    (proposalRound ps rs data now).2.1 = rs ∧
    ((proposalRound ps rs data now).1).sequence_number = ps.sequence_number + 1 ∧
    ((proposalRound ps rs data now).1).is_primary = true ∧
    ((proposalRound ps rs data now).1).blockchain = ps.blockchain ∧
    ((proposalRound ps rs data now).1).view_number = ps.view_number := by
  obtain ⟨last, hlast⟩ : ∃ last, ps.blockchain.getLast? = some last := by
    cases hbc : ps.blockchain.getLast? with
    | none => exact absurd (List.getLast?_eq_none_iff.mp hbc) hg
    | some last => exact ⟨last, rfl⟩
  obtain ⟨hsucc, hseq1, hbh, b, hpend, hbseq, hbheight, hbview, hstate⟩ :=
    ClientSubmitBlock_accept ps data now last hp hlast
  unfold proposalRound
  dsimp only
  rw [hpend]
  dsimp only
  unfold PrePrepare
  rw [if_neg (by simp [hs])]
  have hview : (ClientSubmitBlock ps data now).1.view_number = rs.view_number := by
    rw [hstate]
    exact hv
  rw [if_neg (by simp [hview])]
  rw [if_pos (show b.sequence_number ≠ rs.sequence_number + 1 by rw [hbseq]; omega)]
  refine ⟨rfl, rfl, rfl, hseq1, ?_, ?_, ?_⟩
  · rw [hstate]
    exact hp
  · rw [hstate]
  · rw [hstate]

/-- Iterating rounds from a diverged pair: every reply is a
"Sequence mismatch" rejection, the Replica never moves, the Primary gains
one sequence number per round. -/
theorem roundsN_diverged (n : Nat) :
    ∀ ps rs data now, ps.is_primary = true → ps.blockchain ≠ [] →
    isSilent rs = false → ps.view_number = rs.view_number →
    rs.sequence_number < ps.sequence_number →
    (∀ r ∈ (roundsN n ps rs data now).2.2,
      r.accepted = false ∧ r.reason = "Sequence mismatch") ∧
    (roundsN n ps rs data now).2.1 = rs ∧
    ((roundsN n ps rs data now).1).sequence_number = ps.sequence_number + n := by
  induction n with
  | zero =>
    intro ps rs data now hp hg hs hv hlt
    exact ⟨by intro r hr; exact absurd hr (List.not_mem_nil r), rfl, rfl⟩
  | succ n ih =>
    intro ps rs data now hp hg hs hv hlt
    have hr := proposalRound_diverged ps rs data now hp hg hs hv hlt
    obtain ⟨hacc, hreason, hrs, hseq, hprim, hchain, hvw⟩ := hr
    have hg' : ((proposalRound ps rs data now).1).blockchain ≠ [] := by
      rw [hchain]; exact hg
    have hv' : ((proposalRound ps rs data now).1).view_number = rs.view_number := by
      rw [hvw]; exact hv
    have hlt' : rs.sequence_number < ((proposalRound ps rs data now).1).sequence_number := by
      rw [hseq]; omega
    have ihr := ih ((proposalRound ps rs data now).1) rs data now hprim hg' hs hv' hlt'
    show (∀ r ∈ (roundsN (n + 1) ps rs data now).2.2,
        r.accepted = false ∧ r.reason = "Sequence mismatch") ∧
      (roundsN (n + 1) ps rs data now).2.1 = rs ∧
      ((roundsN (n + 1) ps rs data now).1).sequence_number = ps.sequence_number + (n + 1)
    rw [show roundsN (n + 1) ps rs data now =
        ((roundsN n (proposalRound ps rs data now).1 (proposalRound ps rs data now).2.1
            data now).1,
         (roundsN n (proposalRound ps rs data now).1 (proposalRound ps rs data now).2.1
            data now).2.1,
         (proposalRound ps rs data now).2.2 ::
           (roundsN n (proposalRound ps rs data now).1 (proposalRound ps rs data now).2.1
              data now).2.2) from rfl]
    rw [hrs]
    refine ⟨?_, ihr.2.1, by rw [ihr.2.2, hseq]; omega⟩
    intro r hrmem
    rcases List.mem_cons.mp hrmem with hhead | htail
    · rw [hhead]
      exact ⟨hacc, hreason⟩
    · exact ihr.1 r htail

/-- C10: on a Primary, every accepted `ClientSubmitBlock` increments
`sequence_number` by exactly 1, sets `pending_block`, and replies
`success=true` carrying the new block height — all computed from local
state before any Replica sees the block (the Pre-prepare broadcast runs on
a separate thread after the reply); no handler ever decreases
`sequence_number`; and once the Primary's sequence number strictly exceeds
a Replica's — the state after a round every Replica rejected — every
subsequent proposal carries a sequence number above `current_sequence + 1`
and is rejected by the (non-silent, same-view) Replica with
"Sequence mismatch", forever, while the gap only grows. -/
theorem primary_sequence_divergence :
    (∀ s data now last, s.is_primary = true → s.blockchain.getLast? = some last →
      (ClientSubmitBlock s data now).2.success = true ∧
      ((ClientSubmitBlock s data now).1).sequence_number = s.sequence_number + 1 ∧
      (ClientSubmitBlock s data now).2.block_height =
        Int.ofNat (last.block_height + 1) ∧
      ∃ b, ((ClientSubmitBlock s data now).1).pending_block = some b ∧
        b.sequence_number = s.sequence_number + 1) ∧
    (∀ s req, s.sequence_number ≤ ((PrePrepare s req).1).sequence_number) ∧
    (∀ s req, s.sequence_number ≤ ((Prepare s req).1).sequence_number) ∧
    (∀ s req, s.sequence_number ≤ ((Commit s req).1).sequence_number) ∧
    (∀ s data now, s.sequence_number ≤ ((ClientSubmitBlock s data now).1).sequence_number) ∧
    (∀ s req, s.sequence_number ≤ ((SetMaliciousBehavior s req).1).sequence_number) ∧
    (∀ s b, s.sequence_number ≤ (execute_block s b).sequence_number) ∧
    (∀ n ps rs data now, ps.is_primary = true → ps.blockchain ≠ [] →
      isSilent rs = false → ps.view_number = rs.view_number →
      rs.sequence_number < ps.sequence_number →
      (∀ r ∈ (roundsN n ps rs data now).2.2,
        r.accepted = false ∧ r.reason = "Sequence mismatch") ∧
      (roundsN n ps rs data now).2.1 = rs ∧
      ((roundsN n ps rs data now).1).sequence_number = ps.sequence_number + n ∧
      (1 ≤ n →
        rs.sequence_number + 1 < ((roundsN n ps rs data now).1).sequence_number)) := by
  refine ⟨?_, PrePrepare_seq_mono, Prepare_seq_mono, Commit_seq_mono,
    ClientSubmitBlock_seq_mono, SetMalicious_seq_mono, execute_block_seq_mono, ?_⟩
  · intro s data now last hp hlast
    obtain ⟨hsucc, hseq1, hbh, b, hpend, hbseq, _, _, _⟩ :=
      ClientSubmitBlock_accept s data now last hp hlast
    exact ⟨hsucc, hseq1, hbh, b, hpend, hbseq⟩
  · intro n ps rs data now hp hg hs hv hlt
    obtain ⟨hrej, hrs, hseq⟩ := roundsN_diverged n ps rs data now hp hg hs hv hlt
    exact ⟨hrej, hrs, hseq, fun hn => by omega⟩

/-- A Primary that has completed one submission (sequence 1) while the
Replica is still at sequence 0 — the state after a round every Replica
rejected. -/
def pbftPrimary10 : PBFTState :=
  (ClientSubmitBlock (initPBFT "node1" 4 true 0) "t0" 0).1

def pbftReplica10 : PBFTState := initPBFT "node2" 4 false 0

/-- Witness for C10 over two further rounds: the Replica never moves and
the Primary ends two sequence numbers further ahead. -/
theorem primary_sequence_divergence_witness :
    (roundsN 2 pbftPrimary10 pbftReplica10 "t1" 1).2.1 = pbftReplica10 ∧
    ((roundsN 2 pbftPrimary10 pbftReplica10 "t1" 1).1).sequence_number =
      pbftPrimary10.sequence_number + 2 ∧
    (1 ≤ 2 →
      pbftReplica10.sequence_number + 1 <
        ((roundsN 2 pbftPrimary10 pbftReplica10 "t1" 1).1).sequence_number) :=
  ⟨(primary_sequence_divergence.2.2.2.2.2.2.2 2 pbftPrimary10 pbftReplica10 "t1" 1
      (by decide) (by decide) (by decide) (by decide) (by decide)).2.1,
   (primary_sequence_divergence.2.2.2.2.2.2.2 2 pbftPrimary10 pbftReplica10 "t1" 1
      (by decide) (by decide) (by decide) (by decide) (by decide)).2.2.1,
   (primary_sequence_divergence.2.2.2.2.2.2.2 2 pbftPrimary10 pbftReplica10 "t1" 1
      (by decide) (by decide) (by decide) (by decide) (by decide)).2.2.2⟩
